import Mathlib

set_option maxHeartbeats 1000000

/- Verification development for the ABC inventory slotting core: the
classifier `ABCSlotter.perform_abc_analysis` (src/utils/abc_slotting.py) and
the slot assigner `assign_optimized_location` together with its driver loop
(src/streamlit_app.py).  Machine arithmetic is modelled exactly: rationals
stand for the numeric values, and a dedicated scalar type captures the NaN
and infinity results that numpy division by zero produces. -/

/-- Scalar produced by the pandas arithmetic in the classifier: a finite
rational, a signed infinity, or the NaN that numpy returns for zero divided
by zero. -/
inductive PandasVal where
  | fin : ℚ → PandasVal
  | posInf : PandasVal
  | negInf : PandasVal
  | nan : PandasVal
deriving DecidableEq, Repr

/-- Division as numpy performs it on numeric columns: division by zero
yields NaN for a zero numerator and a signed infinity otherwise. -/
def pDiv (x y : ℚ) : PandasVal :=
  if y = 0 then
    if x = 0 then PandasVal.nan
    else if 0 < x then PandasVal.posInf
    else PandasVal.negInf
  else PandasVal.fin (x / y)

/-- Addition on pandas scalars, following IEEE rules for NaN and infinity. -/
def pAdd : PandasVal → PandasVal → PandasVal
  | PandasVal.nan, _ => PandasVal.nan
  | _, PandasVal.nan => PandasVal.nan
  | PandasVal.fin a, PandasVal.fin b => PandasVal.fin (a + b)
  | PandasVal.posInf, PandasVal.negInf => PandasVal.nan
  | PandasVal.negInf, PandasVal.posInf => PandasVal.nan
  | PandasVal.posInf, _ => PandasVal.posInf
  | _, PandasVal.posInf => PandasVal.posInf
  | PandasVal.negInf, _ => PandasVal.negInf
  | _, PandasVal.negInf => PandasVal.negInf

/-- Comparison of a pandas scalar against a rational cutoff, as the boolean
mask `column <= cutoff` evaluates it: False on NaN and on plus infinity. -/
def pLe (x : PandasVal) (c : ℚ) : Bool :=
  match x with
  | PandasVal.fin q => decide (q ≤ c)
  | PandasVal.negInf => true
  | PandasVal.posInf => false
  | PandasVal.nan => false

/-- Cumulative sum matching pandas Series.cumsum with its default skipna
behaviour: a NaN entry yields NaN in place and leaves the running total
unchanged. -/
def pdCumsum (acc : PandasVal) : List PandasVal → List PandasVal
  | [] => []
  | PandasVal.nan :: xs => PandasVal.nan :: pdCumsum acc xs
  | x :: xs => pAdd acc x :: pdCumsum (pAdd acc x) xs

/-- Exact rational running sums, used to state what the cumulative share
column contains when the total value is positive. -/
def qCumsum (acc : ℚ) : List ℚ → List ℚ
  | [] => []
  | x :: xs => (acc + x) :: qCumsum (acc + x) xs

/-- Failure raised by the classifier: the pandas KeyError for a column name
that is absent from the frame. -/
inductive PdError where
  | keyError
deriving DecidableEq, Repr

/-- Input dataframe: a list of column names and a list of rows, each row an
association list from column name to numeric cell. -/
structure InputDF where
  cols : List String
  rows : List (List (String × ℚ))
deriving DecidableEq, Repr

/-- Column extraction by name; an absent name raises KeyError, as indexing a
pandas frame with an unknown column does. -/
def getColumn (df : InputDF) (c : String) : Except PdError (List ℚ) :=
  if c ∈ df.cols then Except.ok (df.rows.map (fun r => (r.lookup c).getD 0))
  else Except.error PdError.keyError

/-- The three inventory classes. -/
inductive ABCClass where
  | A
  | B
  | C
deriving DecidableEq, Repr

/-- Layered class assignment from the source: every row starts at C, is
overridden to B where the cumulative share is at most `bCutoff`, and then
overridden to A where it is at most `aCutoff`. -/
def assignClass (cum : PandasVal) (aCutoff bCutoff : ℚ) : ABCClass :=
  let c0 := ABCClass.C
  let c1 := if pLe cum bCutoff then ABCClass.B else c0
  if pLe cum aCutoff then ABCClass.A else c1

/-- Output row of the classifier: the original fields plus the four derived
columns and the ABC class. -/
structure ORow where
  row : List (String × ℚ)
  annual_value : ℚ
  value_percentage : PandasVal
  cumulative_value_percentage : PandasVal
  item_percentage : ℚ
  abc_class : ABCClass
deriving DecidableEq, Repr

/-- Assemble the classifier's output rows from the sorted (row, value) pairs
and the computed share and cumulative-share columns; `i` is the zero-based
position and `n` the total row count. -/
def buildRows (aCutoff bCutoff : ℚ) (n : ℕ) :
    ℕ → List (List (String × ℚ) × ℚ) → List PandasVal → List PandasVal → List ORow
  | _, [], _, _ => []
  | _, _ :: _, [], _ => []
  | _, _ :: _, _ :: _, [] => []
  | i, x :: xs, s :: ss, c :: cs =>
      { row := x.1, annual_value := x.2, value_percentage := s,
        cumulative_value_percentage := c,
        item_percentage := ((i : ℚ) + 1) / (n : ℚ),
        abc_class := assignClass c aCutoff bCutoff } ::
        buildRows aCutoff bCutoff n (i + 1) xs ss cs

/-- Sort key of the classifier: annual value descending; on ties the earlier
element is kept first by the stable insertion sort. -/
def valueDescRel (x y : List (String × ℚ) × ℚ) : Prop := y.2 ≤ x.2

instance : DecidableRel valueDescRel := fun x y => by
  unfold valueDescRel; exact inferInstance

/-- Embedding of `ABCSlotter.perform_abc_analysis`.  Columns are read by
name (a missing name raises KeyError), annual value is demand times cost,
rows are sorted by annual value descending, total value and the share and
cumulative-share columns are computed with pandas arithmetic, item share is
rank over count, and classes come from the layered overrides. -/
def perform_abc_analysis (df : InputDF) (itemColumn demandColumn costColumn : String)
    (aCutoff bCutoff : ℚ) : Except PdError (List ORow) :=
  match getColumn df demandColumn with
  | Except.error e => Except.error e
  | Except.ok demands =>
    match getColumn df costColumn with
    | Except.error e => Except.error e
    | Except.ok costs =>
      let vals := List.zipWith (fun a b => a * b) demands costs
      let sorted := List.insertionSort valueDescRel (df.rows.zip vals)
      let totalValue := (sorted.map Prod.snd).sum
      let shares := sorted.map (fun x => pDiv x.2 totalValue)
      let cums := pdCumsum (PandasVal.fin 0) shares
      Except.ok (buildRows aCutoff bCutoff sorted.length 0 sorted shares cums)

/- ---------------------------------------------------------------- -/
/- Slot assigner (src/streamlit_app.py, assign_optimized_location). -/
/- ---------------------------------------------------------------- -/

/-- Warehouse geometry: blocks per alley, levels per block, positions per
level. -/
structure Geometry where
  blocks : ℕ
  levels : ℕ
  positions : ℕ
deriving DecidableEq, Repr

/-- Per-class alley pools, as the `class_to_alleys` dictionary. -/
structure SlotConfig where
  aAlleys : List ℕ
  bAlleys : List ℕ
  cAlleys : List ℕ
deriving DecidableEq, Repr

/-- Pool lookup `class_to_alleys.get(abc_class, [])`. -/
def classToAlleys (cfg : SlotConfig) : ABCClass → List ℕ
  | ABCClass.A => cfg.aAlleys
  | ABCClass.B => cfg.bAlleys
  | ABCClass.C => cfg.cAlleys

/-- Alley pool in the order the assigner indexes it: the class A pool is
sorted ascending, B and C pools keep their configured order. -/
def availableAlleys (cfg : SlotConfig) (cls : ABCClass) : List ℕ :=
  if cls = ABCClass.A then List.insertionSort (fun a b => a ≤ b) (classToAlleys cfg cls)
  else classToAlleys cfg cls

/-- Two-digit zero padding, exactly Python's 02d format on naturals. -/
def pad2 (n : ℕ) : String :=
  if n < 10 then "0" ++ toString n else toString n

/-- Coordinate state of the assignment loop: deposit, index into the alley
pool, alley number, block, level, position. -/
@[ext]
structure ProbeState where
  d : ℕ
  aIdx : ℕ
  aa : ℕ
  bb : ℕ
  ll : ℕ
  pp : ℕ
deriving DecidableEq, Repr

/-- Location string d.aa.bb.ll.pp with aa, bb, ll, pp zero-padded to width
two and the deposit unpadded. -/
def fmtState (s : ProbeState) : String :=
  toString s.d ++ "." ++ pad2 s.aa ++ "." ++ pad2 s.bb ++ "." ++ pad2 s.ll ++ "." ++ pad2 s.pp

/-- One iteration of the collision loop body, as the source's sequence of
four if statements over the mutable coordinates. -/
def probeStep (geo : Geometry) (alleys : List ℕ) (s : ProbeState) : ProbeState :=
  let s1 : ProbeState := { s with pp := s.pp + 1 }
  let s2 : ProbeState :=
    if s1.pp > geo.positions then { s1 with pp := 1, ll := s1.ll + 1 } else s1
  let s3 : ProbeState :=
    if s2.ll > geo.levels then { s2 with ll := 1, bb := s2.bb + 1 } else s2
  let s4 : ProbeState :=
    if s3.bb > geo.blocks then
      { s3 with
        bb := 1
        aIdx := (s3.aIdx + 1) % alleys.length
        aa := alleys.getD ((s3.aIdx + 1) % alleys.length) 0 }
    else s3
  if s4.aIdx = 0 ∧ s4.bb = 1 ∧ s4.ll = 1 ∧ s4.pp = 1 then { s4 with d := s4.d + 1 } else s4

/-- The while loop of the collision handler: advance while the current
location is claimed, spending at most `fuel` attempts. -/
def probeAux (geo : Geometry) (alleys : List ℕ) (used : List String) :
    ℕ → ProbeState → ProbeState
  | 0, s => s
  | fuel + 1, s =>
      if fmtState s ∈ used then probeAux geo alleys used fuel (probeStep geo alleys s) else s

/-- Initial coordinates derived from the rank within the class: cyclic alley
choice, then deposit, block, level, position from the per-alley position
rank. -/
def deriveState (geo : Geometry) (alleys : List ℕ) (rank : ℕ) : ProbeState :=
  let n := alleys.length
  let aIdx := rank % n
  let aa := alleys.getD aIdx 0
  let total := geo.blocks * geo.levels * geo.positions
  let pr0 := rank / n
  let dpr : ℕ × ℕ := if pr0 ≥ total then (pr0 / total + 1, pr0 % total) else (1, pr0)
  let bb := dpr.2 / (geo.levels * geo.positions) + 1
  let remaining := dpr.2 % (geo.levels * geo.positions)
  let ll := remaining / geo.positions + 1
  let pp := remaining % geo.positions + 1
  ⟨dpr.1, aIdx, aa, bb, ll, pp⟩

/-- Result of assigning one row: a location string, or one of the two
failure sentinels the source returns as strings ("No location available for
this class" and "Collision: No available location found"). -/
inductive LocResult where
  | ok : String → LocResult
  | noLocation : LocResult
  | collision : LocResult
deriving DecidableEq, Repr

/-- Embedding of `assign_optimized_location`.  The per-run claimed-location
set `used` is threaded explicitly; on success the chosen location is
prepended to it, on either sentinel it is returned unchanged. -/
def assign_optimized_location (geo : Geometry) (cfg : SlotConfig) (used : List String)
    (cls : ABCClass) (rank : ℕ) : LocResult × List String :=
  if classToAlleys cfg cls = [] then (LocResult.noLocation, used)
  else
    let alleys := availableAlleys cfg cls
    let s := probeAux geo alleys used 1000 (deriveState geo alleys rank)
    let location := fmtState s
    if location ∈ used then (LocResult.collision, used)
    else (LocResult.ok location, location :: used)

/-- Order of class labels as Python compares the strings A, B, C. -/
def slotKey : ABCClass → ℕ
  | ABCClass.A => 0
  | ABCClass.B => 1
  | ABCClass.C => 2

/-- Sort key of the assigner's pre-sort: class ascending, then annual value
descending. -/
def slotRel (x y : ORow) : Prop :=
  slotKey x.abc_class < slotKey y.abc_class ∨
    (slotKey x.abc_class = slotKey y.abc_class ∧ y.annual_value ≤ x.annual_value)

instance : DecidableRel slotRel := fun x y => by
  unfold slotRel; exact inferInstance

/-- Zero-based rank of each row within its class, in list order (pandas
groupby cumcount). -/
def cumcount (seen : ABCClass → ℕ) : List ORow → List (ORow × ℕ)
  | [] => []
  | r :: rs =>
      (r, seen r.abc_class) ::
        cumcount (fun c => if c = r.abc_class then seen c + 1 else seen c) rs

/-- The apply loop: assign every row in order, threading the claimed set. -/
def assignAll (geo : Geometry) (cfg : SlotConfig) :
    List (ORow × ℕ) → List String → List LocResult × List String
  | [], used => ([], used)
  | rk :: rest, used =>
      let p := assign_optimized_location geo cfg used rk.1.abc_class rk.2
      let q := assignAll geo cfg rest p.2
      (p.1 :: q.1, q.2)

/-- The full slot-assignment pass over a classified table: pre-sort by
(class, value descending), rank within class, then assign sequentially
starting from an empty claimed set. -/
def assignLocations (geo : Geometry) (cfg : SlotConfig) (t : List ORow) : List LocResult :=
  (assignAll geo cfg (cumcount (fun _ => 0) (List.insertionSort slotRel t)) []).1

/- ------------------------------------------------------------- -/
/- Claim-side definitions and concrete inputs used by witnesses. -/
/- ------------------------------------------------------------- -/

/-- In-range invariant of the probe coordinates: the alley index addresses
the pool, the alley is the pool entry at that index, block, level and
position are one-based and within the geometry, and the deposit is at least
one. -/
def GoodState (geo : Geometry) (alleys : List ℕ) (s : ProbeState) : Prop :=
  s.aIdx < alleys.length ∧ s.aa = alleys.getD s.aIdx 0 ∧
    1 ≤ s.bb ∧ s.bb ≤ geo.blocks ∧ 1 ≤ s.ll ∧ s.ll ≤ geo.levels ∧
    1 ≤ s.pp ∧ s.pp ≤ geo.positions ∧ 1 ≤ s.d

/-- The location formula exactly as the claim words it, over the ordered
available pool: chosen alley is the pool entry at classRank mod pool size,
positionRank is classRank div pool size, the deposit is one plus its
quotient by the per-alley capacity, block, level and position decompose the
remainder, and the parts are formatted with the deposit unpadded and the
rest zero-padded to width two. -/
def claimLocation (geo : Geometry) (alleys : List ℕ) (rank : ℕ) : String :=
  let n := alleys.length
  let chosenAlley := alleys.getD (rank % n) 0
  let perAlley := geo.blocks * geo.levels * geo.positions
  let d := 1 + rank / n / perAlley
  let pr := rank / n % perAlley
  let bb := 1 + pr / (geo.levels * geo.positions)
  let r := pr % (geo.levels * geo.positions)
  let ll := 1 + r / geo.positions
  let pp := 1 + r % geo.positions
  toString d ++ "." ++ pad2 chosenAlley ++ "." ++ pad2 bb ++ "." ++ pad2 ll ++ "." ++ pad2 pp

/-- The collision advance exactly as the claim words it, as nested overflow
handling: increment pp; when pp overflows reset it and increment ll; when
ll overflows reset it and increment bb; when bb overflows reset it and
advance the alley index cyclically; when the new index is 0 with bb, ll, pp
all at their reset value 1, increment the deposit. -/
def specCollisionAdvance (geo : Geometry) (alleys : List ℕ) (s : ProbeState) : ProbeState :=
  let pp := s.pp + 1
  if pp > geo.positions then
    let pp := 1
    let ll := s.ll + 1
    if ll > geo.levels then
      let ll := 1
      let bb := s.bb + 1
      if bb > geo.blocks then
        let bb := 1
        let aIdx := (s.aIdx + 1) % alleys.length
        let aa := alleys.getD aIdx 0
        if aIdx = 0 ∧ bb = 1 ∧ ll = 1 ∧ pp = 1 then
          ⟨s.d + 1, aIdx, aa, bb, ll, pp⟩
        else
          ⟨s.d, aIdx, aa, bb, ll, pp⟩
      else ⟨s.d, s.aIdx, s.aa, bb, ll, pp⟩
    else ⟨s.d, s.aIdx, s.aa, s.bb, ll, pp⟩
  else ⟨s.d, s.aIdx, s.aa, s.bb, s.ll, pp⟩

/-- Geometry of the worked example in the spec: 10 blocks, 4 levels, 10
positions. -/
def exGeo : Geometry := ⟨10, 4, 10⟩

/-- Alley pools of the worked example: A gets alleys 1 and 2. -/
def exCfg : SlotConfig := ⟨[1, 2], [3, 4, 5], [6, 7, 8, 9, 10]⟩

/-- A class-A classified row carrying only the fields the assigner reads. -/
def mkARow (v : ℚ) : ORow :=
  ⟨[], v, PandasVal.fin 0, PandasVal.fin 0, 0, ABCClass.A⟩

/-- Three class-A rows with strictly descending values: ranks 0, 1, 2. -/
def exRows : List ORow := [mkARow 3, mkARow 2, mkARow 1]

/-- The spec's classifier example: items X, Y, Z with values 1000, 250, 10. -/
def dfEx : InputDF :=
  ⟨["item_id", "annual_demand", "unit_cost"],
   [[("item_id", 1), ("annual_demand", 100), ("unit_cost", 10)],
    [("item_id", 2), ("annual_demand", 50), ("unit_cost", 5)],
    [("item_id", 3), ("annual_demand", 10), ("unit_cost", 1)]]⟩

/-- First output row of the classifier on `dfEx`: item X, class A. -/
def rowX : ORow :=
  { row := [("item_id", 1), ("annual_demand", 100), ("unit_cost", 10)]
    annual_value := 1000
    value_percentage := PandasVal.fin (50 / 63)
    cumulative_value_percentage := PandasVal.fin (50 / 63)
    item_percentage := 1 / 3
    abc_class := ABCClass.A }

/-- Second output row of the classifier on `dfEx`: item Y, class C. -/
def rowY : ORow :=
  { row := [("item_id", 2), ("annual_demand", 50), ("unit_cost", 5)]
    annual_value := 250
    value_percentage := PandasVal.fin (25 / 126)
    cumulative_value_percentage := PandasVal.fin (125 / 126)
    item_percentage := 2 / 3
    abc_class := ABCClass.C }

/-- Third output row of the classifier on `dfEx`: item Z, class C. -/
def rowZ : ORow :=
  { row := [("item_id", 3), ("annual_demand", 10), ("unit_cost", 1)]
    annual_value := 10
    value_percentage := PandasVal.fin (1 / 126)
    cumulative_value_percentage := PandasVal.fin 1
    item_percentage := 1
    abc_class := ABCClass.C }

/-- A one-row input whose only annual value is zero (demand 0, cost 5). -/
def dfZero : InputDF :=
  ⟨["annual_demand", "unit_cost"], [[("annual_demand", 0), ("unit_cost", 5)]]⟩

/-- An input with the expected columns but no rows at all. -/
def dfEmptyRows : InputDF := ⟨["annual_demand", "unit_cost"], []⟩

/-- Smallest geometry: one block, one level, one position per alley. -/
def geo111 : Geometry := ⟨1, 1, 1⟩

/-- One alley for class A, none for B or C. -/
def cfg111 : SlotConfig := ⟨[1], [], []⟩

/-- A claimed set holding the 1001 locations the probe visits from rank 0 in
`geo111`/`cfg111`: deposits 1 through 1001 of slot 01.01.01.01. -/
def badUsed : List String :=
  (List.range 1001).map (fun k => fmtState ⟨k + 1, 0, 1, 1, 1, 1⟩)

/-- Annual value of one input row: demand times cost, read by column name. -/
def annualValue (dcol ccol : String) (r : List (String × ℚ)) : ℚ :=
  ((r.lookup dcol).getD 0) * ((r.lookup ccol).getD 0)

/-- The classifier's sorted (row, value) pairs, as a named view. -/
def sortedPairs (df : InputDF) (dcol ccol : String) : List (List (String × ℚ) × ℚ) :=
  List.insertionSort valueDescRel (df.rows.zip (df.rows.map (annualValue dcol ccol)))

/-- The classifier's total annual value, as a named view. -/
def totalOf (df : InputDF) (dcol ccol : String) : ℚ :=
  ((sortedPairs df dcol ccol).map Prod.snd).sum

/-- The classifier's value-share column, as a named view. -/
def sharesOf (df : InputDF) (dcol ccol : String) : List PandasVal :=
  (sortedPairs df dcol ccol).map (fun x => pDiv x.2 (totalOf df dcol ccol))

/- ----------------- -/
/- Helper lemmas.    -/
/- ----------------- -/

/-- A probe whose current location is unclaimed stops at once. -/
theorem lem_probeAux_not_mem (geo : Geometry) (alleys : List ℕ) (used : List String)
    (fuel : ℕ) (s : ProbeState) (h : fmtState s ∉ used) :
    probeAux geo alleys used fuel s = s := by
  cases fuel with
  | zero => rfl
  | succ f => simp [probeAux, h]

/-- Membership in an available pool is membership in the configured pool. -/
theorem lem_availableAlleys_mem (cfg : SlotConfig) (cls : ABCClass) (x : ℕ) :
    x ∈ availableAlleys cfg cls ↔ x ∈ classToAlleys cfg cls := by
  unfold availableAlleys
  split
  · exact (List.perm_insertionSort _ _).mem_iff
  · exact Iff.rfl

/-- Sorting the class-A pool does not change its size. -/
theorem lem_availableAlleys_length (cfg : SlotConfig) (cls : ABCClass) :
    (availableAlleys cfg cls).length = (classToAlleys cfg cls).length := by
  unfold availableAlleys
  split
  · exact List.length_insertionSort _ _
  · rfl

/-- The three possible outcomes of one assignment call: an unclaimed
location that is prepended to the claimed set, or a sentinel that leaves the
claimed set unchanged. -/
theorem lem_assign_cases (geo : Geometry) (cfg : SlotConfig) (used : List String)
    (cls : ABCClass) (rank : ℕ) :
    (∃ s, assign_optimized_location geo cfg used cls rank = (LocResult.ok s, s :: used) ∧
      s ∉ used) ∨
    ((assign_optimized_location geo cfg used cls rank).2 = used ∧
      ∀ s, (assign_optimized_location geo cfg used cls rank).1 ≠ LocResult.ok s) := by
  unfold assign_optimized_location
  by_cases hpool : classToAlleys cfg cls = []
  · right; simp [hpool]
  · rw [if_neg hpool]
    by_cases hmem :
        fmtState (probeAux geo (availableAlleys cfg cls) used 1000
          (deriveState geo (availableAlleys cfg cls) rank)) ∈ used
    · right; simp [hmem]
    · left
      exact ⟨_, by simp [hmem], hmem⟩

/-- One assignment call only grows the claimed set. -/
theorem lem_assign_subset (geo : Geometry) (cfg : SlotConfig) (used : List String)
    (cls : ABCClass) (rank : ℕ) :
    used ⊆ (assign_optimized_location geo cfg used cls rank).2 := by
  rcases lem_assign_cases geo cfg used cls rank with ⟨s, hs, _⟩ | ⟨h2, _⟩
  · rw [hs]; exact List.subset_cons_self _ _
  · rw [h2]; exact fun a ha => ha

/-- The driver loop only grows the claimed set. -/
theorem lem_assignAll_subset (geo : Geometry) (cfg : SlotConfig) :
    ∀ (rows : List (ORow × ℕ)) (used : List String),
      used ⊆ (assignAll geo cfg rows used).2 := by
  intro rows
  induction rows with
  | nil => intro used; exact fun a ha => ha
  | cons rk rest ih =>
      intro used
      exact (lem_assign_subset geo cfg used rk.1.abc_class rk.2).trans (ih _)

/-- Every successful location of the driver loop is absent from the claimed
set the loop started with. -/
theorem lem_assignAll_ok_not_mem (geo : Geometry) (cfg : SlotConfig) :
    ∀ (rows : List (ORow × ℕ)) (used : List String) (r : LocResult) (s : String),
      r ∈ (assignAll geo cfg rows used).1 → r = LocResult.ok s → s ∉ used := by
  intro rows
  induction rows with
  | nil => intro used r s hr; simp [assignAll] at hr
  | cons rk rest ih =>
      intro used r s hr hok
      rw [assignAll] at hr
      rcases List.mem_cons.mp hr with hhead | htail
      · rcases lem_assign_cases geo cfg used rk.1.abc_class rk.2 with
          ⟨s0, hs0, hnm⟩ | ⟨_, hnot⟩
        · have h1 : (assign_optimized_location geo cfg used rk.1.abc_class rk.2).1 =
              LocResult.ok s0 := by rw [hs0]
          rw [hhead, h1] at hok
          injection hok with h
          subst h
          exact hnm
        · exact absurd (hhead.symm.trans hok) (hnot s)
      · intro hmem
        exact ih _ r s htail hok
          (lem_assign_subset geo cfg used rk.1.abc_class rk.2 hmem)

/-- Results of the driver loop are pairwise distinct on successes. -/
theorem lem_assignAll_pairwise (geo : Geometry) (cfg : SlotConfig) :
    ∀ (rows : List (ORow × ℕ)) (used : List String),
      List.Pairwise
        (fun r1 r2 => ∀ s1 s2, r1 = LocResult.ok s1 → r2 = LocResult.ok s2 → s1 ≠ s2)
        (assignAll geo cfg rows used).1 := by
  intro rows
  induction rows with
  | nil => intro used; simp [assignAll]
  | cons rk rest ih =>
      intro used
      rw [assignAll]
      refine List.Pairwise.cons ?_ (ih _)
      intro r2 hr2 s1 s2 h1 h2
      rcases lem_assign_cases geo cfg used rk.1.abc_class rk.2 with
        ⟨s0, hs0, _⟩ | ⟨_, hnot⟩
      · have h1' : (assign_optimized_location geo cfg used rk.1.abc_class rk.2).1 =
            LocResult.ok s0 := by rw [hs0]
        rw [h1'] at h1
        injection h1 with hss
        have h2' : (assign_optimized_location geo cfg used rk.1.abc_class rk.2).2 =
            s0 :: used := by rw [hs0]
        have hnm2 : s2 ∉ (assign_optimized_location geo cfg used rk.1.abc_class rk.2).2 :=
          lem_assignAll_ok_not_mem geo cfg rest _ r2 s2 hr2 h2
        rw [h2'] at hnm2
        intro heq
        exact hnm2 (by rw [← heq, ← hss]; exact List.mem_cons_self _ _)
      · exact absurd h1 (hnot s1)

/-- Claim C3: for every single invocation of the slot-assignment pass and
every two distinct rows that both receive non-sentinel location strings, the
two location strings differ. -/
theorem claim_C3_location_uniqueness (geo : Geometry) (cfg : SlotConfig) (t : List ORow) :
    List.Pairwise
      (fun r1 r2 => ∀ s1 s2, r1 = LocResult.ok s1 → r2 = LocResult.ok s2 → s1 ≠ s2)
      (assignLocations geo cfg t) := by
  unfold assignLocations
  exact lem_assignAll_pairwise geo cfg _ _

/-- Witness for claim C3 at the worked example. -/
theorem claim_C3_location_uniqueness_witness :
    List.Pairwise
      (fun r1 r2 => ∀ s1 s2, r1 = LocResult.ok s1 → r2 = LocResult.ok s2 → s1 ≠ s2)
      (assignLocations exGeo exCfg exRows) :=
  claim_C3_location_uniqueness exGeo exCfg exRows

/-- The driver loop yields one result per row: no row aborts the batch. -/
theorem lem_assignAll_length (geo : Geometry) (cfg : SlotConfig) :
    ∀ (rows : List (ORow × ℕ)) (used : List String),
      ((assignAll geo cfg rows used).1).length = rows.length := by
  intro rows
  induction rows with
  | nil => intro used; rfl
  | cons rk rest ih => intro used; rw [assignAll]; simp [ih]

/-- Claim C9: a row whose class has an empty alley pool gets the
no-location sentinel with the claimed set unchanged, and the driver keeps
processing the remaining rows, producing one result per row. -/
theorem claim_C9_empty_pool :
    (∀ (geo : Geometry) (cfg : SlotConfig) (used : List String) (cls : ABCClass) (rank : ℕ),
      classToAlleys cfg cls = [] →
      assign_optimized_location geo cfg used cls rank = (LocResult.noLocation, used)) ∧
    ∀ (geo : Geometry) (cfg : SlotConfig) (rows : List (ORow × ℕ)) (used : List String),
      ((assignAll geo cfg rows used).1).length = rows.length := by
  constructor
  · intro geo cfg used cls rank hpool
    unfold assign_optimized_location
    rw [if_pos hpool]
  · exact fun geo cfg rows used => lem_assignAll_length geo cfg rows used

/-- Witness for claim C9: class B of `cfg111` has no alleys. -/
theorem claim_C9_empty_pool_witness :
    assign_optimized_location geo111 cfg111 [] ABCClass.B 0 = (LocResult.noLocation, []) :=
  claim_C9_empty_pool.1 geo111 cfg111 [] ABCClass.B 0 rfl

/-- On in-range coordinates the source's sequence of four if statements
computes exactly the nested overflow cascade the claim describes. -/
theorem lem_probeStep_eq_spec (geo : Geometry) (alleys : List ℕ) (s : ProbeState)
    (hpp : 1 ≤ s.pp) (hll1 : 1 ≤ s.ll) (hll2 : s.ll ≤ geo.levels)
    (hbb1 : 1 ≤ s.bb) (hbb2 : s.bb ≤ geo.blocks) :
    probeStep geo alleys s = specCollisionAdvance geo alleys s := by
  have hln : ¬ s.ll > geo.levels := not_lt.mpr hll2
  have hbn : ¬ s.bb > geo.blocks := not_lt.mpr hbb2
  have hpe : ¬ s.pp + 1 = 1 := by omega
  have hle : ¬ s.ll + 1 = 1 := by omega
  have hbe : ¬ s.bb + 1 = 1 := by omega
  unfold probeStep specCollisionAdvance
  by_cases h1 : s.pp + 1 > geo.positions <;>
    by_cases h2 : s.ll + 1 > geo.levels <;>
      by_cases h3 : s.bb + 1 > geo.blocks <;>
        simp [h1, h2, h3, hln, hbn, hpe, hle, hbe]

/-- The claim's nested advance keeps the coordinates in range. -/
theorem lem_spec_advance_good (geo : Geometry) (alleys : List ℕ) (s : ProbeState)
    (hb : 1 ≤ geo.blocks) (hl : 1 ≤ geo.levels) (hp : 1 ≤ geo.positions)
    (hs : GoodState geo alleys s) :
    GoodState geo alleys (specCollisionAdvance geo alleys s) := by
  obtain ⟨hi, ha, hbb1, hbb2, hll1, hll2, hpp1, hpp2, hd⟩ := hs
  have hlen : 0 < alleys.length := Nat.lt_of_le_of_lt (Nat.zero_le _) hi
  have hmod : (s.aIdx + 1) % alleys.length < alleys.length := Nat.mod_lt _ hlen
  simp only [GoodState, specCollisionAdvance]
  split_ifs with h1 h2 h3 h4 <;>
    dsimp only <;>
      refine ⟨?_, ?_, ?_, ?_, ?_, ?_, ?_, ?_, ?_⟩ <;>
        first
          | exact hmod
          | exact ha
          | rfl
          | omega

/-- One collision step keeps the coordinates in range. -/
theorem lem_probeStep_good (geo : Geometry) (alleys : List ℕ) (s : ProbeState)
    (hb : 1 ≤ geo.blocks) (hl : 1 ≤ geo.levels) (hp : 1 ≤ geo.positions)
    (hs : GoodState geo alleys s) : GoodState geo alleys (probeStep geo alleys s) := by
  rw [lem_probeStep_eq_spec geo alleys s hs.2.2.2.2.2.2.1 hs.2.2.2.2.1 hs.2.2.2.2.2.1
    hs.2.2.1 hs.2.2.2.1]
  exact lem_spec_advance_good geo alleys s hb hl hp hs

/-- The whole probe loop keeps the coordinates in range. -/
theorem lem_probeAux_good (geo : Geometry) (alleys : List ℕ) (used : List String)
    (hb : 1 ≤ geo.blocks) (hl : 1 ≤ geo.levels) (hp : 1 ≤ geo.positions) :
    ∀ (fuel : ℕ) (s : ProbeState), GoodState geo alleys s →
      GoodState geo alleys (probeAux geo alleys used fuel s) := by
  intro fuel
  induction fuel with
  | zero => intro s hs; exact hs
  | succ f ih =>
      intro s hs
      rw [probeAux]
      split
      · exact ih _ (lem_probeStep_good geo alleys s hb hl hp hs)
      · exact hs

/-- Block, level and position decomposed from a per-alley position rank
below the per-alley capacity stay within the geometry. -/
theorem lem_decomp_good (geo : Geometry) (pr : ℕ)
    (hl : 1 ≤ geo.levels) (hp : 1 ≤ geo.positions)
    (hpr : pr < geo.blocks * geo.levels * geo.positions) :
    pr / (geo.levels * geo.positions) + 1 ≤ geo.blocks ∧
      pr % (geo.levels * geo.positions) / geo.positions + 1 ≤ geo.levels ∧
      pr % (geo.levels * geo.positions) % geo.positions + 1 ≤ geo.positions := by
  have hlp : 0 < geo.levels * geo.positions := Nat.mul_pos hl hp
  have h1 : pr < geo.blocks * (geo.levels * geo.positions) := by
    rw [← mul_assoc]; exact hpr
  have hb1 : pr / (geo.levels * geo.positions) < geo.blocks :=
    (Nat.div_lt_iff_lt_mul hlp).mpr h1
  have h2 : pr % (geo.levels * geo.positions) < geo.levels * geo.positions :=
    Nat.mod_lt _ hlp
  have hl1 : pr % (geo.levels * geo.positions) / geo.positions < geo.levels :=
    (Nat.div_lt_iff_lt_mul hp).mpr h2
  have hp1 : pr % (geo.levels * geo.positions) % geo.positions < geo.positions :=
    Nat.mod_lt _ hp
  omega

/-- The initial derived coordinates are in range. -/
theorem lem_deriveState_good (geo : Geometry) (alleys : List ℕ) (rank : ℕ)
    (hlen : 0 < alleys.length) (hb : 1 ≤ geo.blocks) (hl : 1 ≤ geo.levels)
    (hp : 1 ≤ geo.positions) : GoodState geo alleys (deriveState geo alleys rank) := by
  have htot : 0 < geo.blocks * geo.levels * geo.positions :=
    Nat.mul_pos (Nat.mul_pos hb hl) hp
  unfold GoodState deriveState
  dsimp only
  by_cases hge : rank / alleys.length ≥ geo.blocks * geo.levels * geo.positions
  · rw [if_pos hge]
    dsimp only
    obtain ⟨g1, g2, g3⟩ :=
      lem_decomp_good geo (rank / alleys.length % (geo.blocks * geo.levels * geo.positions))
        hl hp (Nat.mod_lt _ htot)
    exact ⟨Nat.mod_lt _ hlen, rfl, Nat.succ_le_succ (Nat.zero_le _), g1,
      Nat.succ_le_succ (Nat.zero_le _), g2, Nat.succ_le_succ (Nat.zero_le _), g3,
      Nat.succ_le_succ (Nat.zero_le _)⟩
  · rw [if_neg hge]
    dsimp only
    obtain ⟨g1, g2, g3⟩ :=
      lem_decomp_good geo (rank / alleys.length) hl hp (by omega)
    exact ⟨Nat.mod_lt _ hlen, rfl, Nat.succ_le_succ (Nat.zero_le _), g1,
      Nat.succ_le_succ (Nat.zero_le _), g2, Nat.succ_le_succ (Nat.zero_le _), g3,
      Nat.le_refl 1⟩

/-- The derived coordinates agree with the claim's unconditional formula:
deposit one plus quotient by the per-alley capacity, remainder decomposed
into block, level, position. -/
theorem lem_deriveState_formula (geo : Geometry) (alleys : List ℕ) (rank : ℕ)
    (htot : 0 < geo.blocks * geo.levels * geo.positions) :
    deriveState geo alleys rank =
      ⟨1 + rank / alleys.length / (geo.blocks * geo.levels * geo.positions),
       rank % alleys.length,
       alleys.getD (rank % alleys.length) 0,
       1 + rank / alleys.length % (geo.blocks * geo.levels * geo.positions) /
         (geo.levels * geo.positions),
       1 + rank / alleys.length % (geo.blocks * geo.levels * geo.positions) %
         (geo.levels * geo.positions) / geo.positions,
       1 + rank / alleys.length % (geo.blocks * geo.levels * geo.positions) %
         (geo.levels * geo.positions) % geo.positions⟩ := by
  unfold deriveState
  dsimp only
  by_cases hge : rank / alleys.length ≥ geo.blocks * geo.levels * geo.positions
  · rw [if_pos hge]
    dsimp only
    ext <;> simp [Nat.add_comm]
  · rw [if_neg hge]
    dsimp only
    have e1 : rank / alleys.length % (geo.blocks * geo.levels * geo.positions) =
        rank / alleys.length := Nat.mod_eq_of_lt (by omega)
    have e2 : rank / alleys.length / (geo.blocks * geo.levels * geo.positions) = 0 :=
      Nat.div_eq_of_lt (by omega)
    rw [e1, e2]
    ext <;> simp [Nat.add_comm]

/-- Formatting the derived coordinates gives the claim's location string. -/
theorem lem_derive_fmt (geo : Geometry) (alleys : List ℕ) (rank : ℕ)
    (htot : 0 < geo.blocks * geo.levels * geo.positions) :
    fmtState (deriveState geo alleys rank) = claimLocation geo alleys rank := by
  rw [lem_deriveState_formula geo alleys rank htot]
  rfl

/-- Claim C10: every non-sentinel location is the formatting of in-range
coordinates: the alley belongs to the class's configured pool, block, level
and position are one-based and bounded by the geometry, and the deposit is
at least one. -/
theorem claim_C10_wellformed_locations (geo : Geometry) (cfg : SlotConfig)
    (used : List String) (cls : ABCClass) (rank : ℕ) (str : String) (used' : List String)
    (hb : 1 ≤ geo.blocks) (hl : 1 ≤ geo.levels) (hp : 1 ≤ geo.positions)
    (h : assign_optimized_location geo cfg used cls rank = (LocResult.ok str, used')) :
    ∃ st : ProbeState, str = fmtState st ∧
      st.aa ∈ classToAlleys cfg cls ∧
      1 ≤ st.bb ∧ st.bb ≤ geo.blocks ∧
      1 ≤ st.ll ∧ st.ll ≤ geo.levels ∧
      1 ≤ st.pp ∧ st.pp ≤ geo.positions ∧ 1 ≤ st.d := by
  by_cases hpool : classToAlleys cfg cls = []
  · rw [assign_optimized_location, if_pos hpool] at h
    exact absurd (congrArg Prod.fst h) (by simp)
  · rw [assign_optimized_location, if_neg hpool] at h
    dsimp only at h
    set sf := probeAux geo (availableAlleys cfg cls) used 1000
      (deriveState geo (availableAlleys cfg cls) rank) with hsf
    by_cases hmem : fmtState sf ∈ used
    · rw [if_pos hmem] at h
      exact absurd (congrArg Prod.fst h) (by simp)
    · rw [if_neg hmem] at h
      have hstr : str = fmtState sf := by
        have := congrArg Prod.fst h
        simpa using this.symm
      have hlen : 0 < (availableAlleys cfg cls).length := by
        rw [lem_availableAlleys_length]
        exact List.length_pos.mpr hpool
      have hgood : GoodState geo (availableAlleys cfg cls) sf := by
        rw [hsf]
        exact lem_probeAux_good geo _ used hb hl hp 1000 _
          (lem_deriveState_good geo _ rank hlen hb hl hp)
      obtain ⟨hi, ha, h3, h4, h5, h6, h7, h8, h9⟩ := hgood
      refine ⟨sf, hstr, ?_, h3, h4, h5, h6, h7, h8, h9⟩
      rw [← lem_availableAlleys_mem]
      rw [ha]
      have : (availableAlleys cfg cls).getD sf.aIdx 0 =
          (availableAlleys cfg cls).get ⟨sf.aIdx, hi⟩ := by
        rw [List.getD_eq_getElem?_getD, List.getElem?_eq_getElem hi]
        rfl
      rw [this]
      exact List.get_mem _ _ _

/-- Witness for claim C10 at the worked example's first class-A slot. -/
theorem claim_C10_wellformed_locations_witness :
    ∃ st : ProbeState, "1.01.01.01.01" = fmtState st ∧
      st.aa ∈ classToAlleys exCfg ABCClass.A ∧
      1 ≤ st.bb ∧ st.bb ≤ exGeo.blocks ∧
      1 ≤ st.ll ∧ st.ll ≤ exGeo.levels ∧
      1 ≤ st.pp ∧ st.pp ≤ exGeo.positions ∧ 1 ≤ st.d :=
  claim_C10_wellformed_locations exGeo exCfg [] ABCClass.A 0 "1.01.01.01.01"
    ["1.01.01.01.01"] (by decide) (by decide) (by decide) (by rfl)

/-- Claim C1: with a non-empty pool (the class-A pool sorted ascending) and
an unclaimed derived location, the assigner returns exactly the claim's
formula location, and the worked example produces the three quoted strings
for class-A ranks 0, 1, 2. -/
theorem claim_C1_location_derivation :
    (∀ (geo : Geometry) (cfg : SlotConfig) (cls : ABCClass) (rank : ℕ) (used : List String),
      classToAlleys cfg cls ≠ [] →
      0 < geo.blocks * geo.levels * geo.positions →
      fmtState (deriveState geo (availableAlleys cfg cls) rank) ∉ used →
      assign_optimized_location geo cfg used cls rank =
        (LocResult.ok (claimLocation geo (availableAlleys cfg cls) rank),
         claimLocation geo (availableAlleys cfg cls) rank :: used)) ∧
    assignLocations exGeo exCfg exRows =
      [LocResult.ok "1.01.01.01.01", LocResult.ok "1.02.01.01.01",
       LocResult.ok "1.01.01.01.02"] := by
  constructor
  · intro geo cfg cls rank used hpool htot hnm
    rw [assign_optimized_location, if_neg hpool]
    dsimp only
    rw [lem_probeAux_not_mem _ _ _ _ _ hnm]
    rw [if_neg hnm]
    rw [lem_derive_fmt _ _ _ htot]
  · decide

/-- Witness for claim C1's general clause at class B, rank 0. -/
theorem claim_C1_location_derivation_witness :
    assign_optimized_location exGeo exCfg [] ABCClass.B 0 =
      (LocResult.ok (claimLocation exGeo (availableAlleys exCfg ABCClass.B) 0),
       [claimLocation exGeo (availableAlleys exCfg ABCClass.B) 0]) :=
  claim_C1_location_derivation.1 exGeo exCfg ABCClass.B 0 [] (by decide) (by decide)
    (List.not_mem_nil _)

/-- Claim C2: on in-range coordinates the collision loop advances exactly by
the claim's cascade, and when the location reached after the 1000-attempt
probe bound is still claimed, the assigner returns the collision sentinel
and leaves the claimed set unchanged. -/
theorem claim_C2_collision_resolution :
    (∀ (geo : Geometry) (alleys : List ℕ) (s : ProbeState),
      1 ≤ s.pp → 1 ≤ s.ll → s.ll ≤ geo.levels → 1 ≤ s.bb → s.bb ≤ geo.blocks →
      probeStep geo alleys s = specCollisionAdvance geo alleys s) ∧
    (∀ (geo : Geometry) (cfg : SlotConfig) (used : List String) (cls : ABCClass) (rank : ℕ),
      classToAlleys cfg cls ≠ [] →
      fmtState (probeAux geo (availableAlleys cfg cls) used 1000
        (deriveState geo (availableAlleys cfg cls) rank)) ∈ used →
      assign_optimized_location geo cfg used cls rank = (LocResult.collision, used)) := by
  constructor
  · intro geo alleys s h1 h2 h3 h4 h5
    exact lem_probeStep_eq_spec geo alleys s h1 h2 h3 h4 h5
  · intro geo cfg used cls rank hpool hmem
    rw [assign_optimized_location, if_neg hpool]
    dsimp only
    rw [if_pos hmem]

/-- In the one-slot geometry with a single alley, each collision step moves
to the next deposit. -/
theorem lem_probeStep_geo111 (d : ℕ) :
    probeStep geo111 [1] ⟨d, 0, 1, 1, 1, 1⟩ = ⟨d + 1, 0, 1, 1, 1, 1⟩ := by
  simp [probeStep, geo111]

/-- Deposits 1 through 1001 of the single slot are all in `badUsed`. -/
theorem lem_mem_badUsed (j : ℕ) (h1 : 1 ≤ j) (h2 : j ≤ 1001) :
    fmtState ⟨j, 0, 1, 1, 1, 1⟩ ∈ badUsed := by
  unfold badUsed
  refine List.mem_map.mpr ⟨j - 1, List.mem_range.mpr (by omega), ?_⟩
  have hj : j - 1 + 1 = j := by omega
  rw [hj]

/-- Probing `badUsed` in the one-slot geometry walks the deposits one by
one. -/
theorem lem_probeAux_badUsed : ∀ (f d : ℕ), 1 ≤ d → d + f ≤ 1001 →
    probeAux geo111 [1] badUsed f ⟨d, 0, 1, 1, 1, 1⟩ = ⟨d + f, 0, 1, 1, 1, 1⟩ := by
  intro f
  induction f with
  | zero => intro d h1 h2; rfl
  | succ f ih =>
      intro d h1 h2
      rw [probeAux, if_pos (lem_mem_badUsed d h1 (by omega)), lem_probeStep_geo111]
      rw [ih (d + 1) (by omega) (by omega)]
      congr 1 <;> omega

/-- Witness for claim C2: a concrete step instance and a run that exhausts
all 1000 probe attempts against `badUsed` and returns the collision
sentinel with the claimed set unchanged. -/
theorem claim_C2_collision_resolution_witness :
    probeStep exGeo [1, 2] ⟨1, 0, 1, 1, 1, 5⟩ =
        specCollisionAdvance exGeo [1, 2] ⟨1, 0, 1, 1, 1, 5⟩ ∧
      assign_optimized_location geo111 cfg111 badUsed ABCClass.A 0 =
        (LocResult.collision, badUsed) := by
  constructor
  · exact claim_C2_collision_resolution.1 exGeo [1, 2] ⟨1, 0, 1, 1, 1, 5⟩
      (by decide) (by decide) (by decide) (by decide) (by decide)
  · refine claim_C2_collision_resolution.2 geo111 cfg111 badUsed ABCClass.A 0 (by decide) ?_
    have h1 : availableAlleys cfg111 ABCClass.A = [1] := rfl
    have h2 : deriveState geo111 [1] 0 = ⟨1, 0, 1, 1, 1, 1⟩ := rfl
    rw [h1, h2, lem_probeAux_badUsed 1000 1 (by omega) (by omega)]
    exact lem_mem_badUsed 1001 (by omega) (by omega)

/-- Pointwise product of two mapped columns over the same row list. -/
theorem lem_zipWith_mul_map (l : List (List (String × ℚ))) (f g : List (String × ℚ) → ℚ) :
    List.zipWith (fun a b => a * b) (l.map f) (l.map g) = l.map (fun x => f x * g x) := by
  induction l with
  | nil => rfl
  | cons x xs ih => simp [List.zipWith, ih]

/-- With both columns present the classifier reduces to the named views. -/
theorem lem_classify_eq (df : InputDF) (itemc dcol ccol : String) (a b : ℚ)
    (hd : dcol ∈ df.cols) (hc : ccol ∈ df.cols) :
    perform_abc_analysis df itemc dcol ccol a b =
      Except.ok (buildRows a b (sortedPairs df dcol ccol).length 0 (sortedPairs df dcol ccol)
        (sharesOf df dcol ccol) (pdCumsum (PandasVal.fin 0) (sharesOf df dcol ccol))) := by
  unfold perform_abc_analysis getColumn
  rw [if_pos hd, if_pos hc]
  dsimp only
  rw [lem_zipWith_mul_map]
  rfl

/-- Every row built by `buildRows` takes its class from the layered override
of its own cumulative share, and its share and cumulative share from the
corresponding columns. -/
theorem lem_buildRows_mem (a b : ℚ) (n : ℕ) :
    ∀ (xs : List (List (String × ℚ) × ℚ)) (i : ℕ) (ss cs : List PandasVal) (r : ORow),
      r ∈ buildRows a b n i xs ss cs →
      r.abc_class = assignClass r.cumulative_value_percentage a b ∧
      r.value_percentage ∈ ss ∧ r.cumulative_value_percentage ∈ cs := by
  intro xs
  induction xs with
  | nil => intro i ss cs r hr; simp [buildRows] at hr
  | cons x xs ih =>
      intro i ss cs r hr
      cases ss with
      | nil => simp [buildRows] at hr
      | cons s ss =>
          cases cs with
          | nil => simp [buildRows] at hr
          | cons c cs =>
              rw [buildRows] at hr
              rcases List.mem_cons.mp hr with h1 | h2
              · subst h1
                exact ⟨rfl, List.mem_cons_self _ _, List.mem_cons_self _ _⟩
              · obtain ⟨e1, e2, e3⟩ := ih (i + 1) ss cs r h2
                exact ⟨e1, List.mem_cons_of_mem _ e2, List.mem_cons_of_mem _ e3⟩

/-- With matching column lengths, `buildRows` yields one output row per
input pair. -/
theorem lem_buildRows_length (a b : ℚ) (n : ℕ) :
    ∀ (xs : List (List (String × ℚ) × ℚ)) (i : ℕ) (ss cs : List PandasVal),
      ss.length = xs.length → cs.length = xs.length →
      (buildRows a b n i xs ss cs).length = xs.length := by
  intro xs
  induction xs with
  | nil => intro i ss cs h1 h2; cases ss <;> cases cs <;> simp_all [buildRows]
  | cons x xs ih =>
      intro i ss cs h1 h2
      cases ss with
      | nil => simp at h1
      | cons s ss =>
          cases cs with
          | nil => simp at h2
          | cons c cs =>
              rw [buildRows]
              simp only [List.length_cons] at h1 h2 ⊢
              rw [ih (i + 1) ss cs (by omega) (by omega)]

/-- With matching column lengths, the cumulative-share column of the built
rows is exactly the cumulative-share input column. -/
theorem lem_buildRows_map_cum (a b : ℚ) (n : ℕ) :
    ∀ (xs : List (List (String × ℚ) × ℚ)) (i : ℕ) (ss cs : List PandasVal),
      ss.length = xs.length → cs.length = xs.length →
      (buildRows a b n i xs ss cs).map ORow.cumulative_value_percentage = cs := by
  intro xs
  induction xs with
  | nil => intro i ss cs h1 h2; cases ss <;> cases cs <;> simp_all [buildRows]
  | cons x xs ih =>
      intro i ss cs h1 h2
      cases ss with
      | nil => simp at h1
      | cons s ss =>
          cases cs with
          | nil => simp at h2
          | cons c cs =>
              rw [buildRows]
              simp only [List.length_cons] at h1 h2
              simp only [List.map_cons]
              rw [ih (i + 1) ss cs (by omega) (by omega)]

/-- The cumulative sum has one entry per share. -/
theorem lem_pdCumsum_length : ∀ (l : List PandasVal) (acc : PandasVal),
    (pdCumsum acc l).length = l.length := by
  intro l
  induction l with
  | nil => intro acc; rfl
  | cons x xs ih =>
      intro acc
      cases x <;> simp [pdCumsum, ih]

/-- On finite entries the pandas cumulative sum is the exact rational
running sum. -/
theorem lem_pdCumsum_fin : ∀ (xs : List ℚ) (acc : ℚ),
    pdCumsum (PandasVal.fin acc) (xs.map PandasVal.fin) =
      (qCumsum acc xs).map PandasVal.fin := by
  intro xs
  induction xs with
  | nil => intro acc; rfl
  | cons x xs ih => intro acc; simp [pdCumsum, qCumsum, pAdd, ih]

/-- A cumulative sum over an all-NaN column is all NaN. -/
theorem lem_pdCumsum_nan : ∀ (l : List PandasVal), (∀ x ∈ l, x = PandasVal.nan) →
    ∀ (acc c : PandasVal), c ∈ pdCumsum acc l → c = PandasVal.nan := by
  intro l
  induction l with
  | nil => intro h acc c hc; simp [pdCumsum] at hc
  | cons x xs ih =>
      intro h acc c hc
      have hx : x = PandasVal.nan := h x (List.mem_cons_self _ _)
      subst hx
      rw [pdCumsum] at hc
      rcases List.mem_cons.mp hc with h1 | h2
      · exact h1
      · exact ih (fun y hy => h y (List.mem_cons_of_mem _ hy)) acc c h2

/-- With nonnegative increments the running sums are a non-decreasing chain
whose entries all dominate the accumulator. -/
theorem lem_qCumsum_chain : ∀ (xs : List ℚ) (acc : ℚ), (∀ x ∈ xs, 0 ≤ x) →
    List.Chain' (fun x y => x ≤ y) (qCumsum acc xs) ∧
      ∀ y ∈ (qCumsum acc xs).head?, acc ≤ y := by
  intro xs
  induction xs with
  | nil => intro acc h; exact ⟨List.chain'_nil, by simp [qCumsum]⟩
  | cons x xs ih =>
      intro acc h
      have hx : 0 ≤ x := h x (List.mem_cons_self _ _)
      obtain ⟨ch, hd⟩ := ih (acc + x) (fun y hy => h y (List.mem_cons_of_mem _ hy))
      constructor
      · rw [qCumsum]
        exact List.chain'_cons'.mpr ⟨hd, ch⟩
      · intro y hy
        rw [qCumsum] at hy
        simp only [List.head?_cons, Option.mem_def, Option.some.injEq] at hy
        subst hy
        linarith

/-- The last running sum is the accumulator plus the total. -/
theorem lem_qCumsum_getLast : ∀ (xs : List ℚ) (acc : ℚ), xs ≠ [] →
    (qCumsum acc xs).getLast? = some (acc + xs.sum) := by
  intro xs
  induction xs with
  | nil => intro acc h; exact absurd rfl h
  | cons x xs ih =>
      intro acc h
      cases xs with
      | nil => simp [qCumsum]
      | cons y ys =>
          have htail := ih (acc + x) (by simp)
          rw [qCumsum]
          rw [show qCumsum (acc + x) (y :: ys) =
            (acc + x + y) :: qCumsum (acc + x + y) ys from rfl]
          rw [List.getLast?_cons_cons]
          rw [show ((acc + x + y) :: qCumsum (acc + x + y) ys : List ℚ) =
            qCumsum (acc + x) (y :: ys) from rfl]
          rw [htail]
          congr 1
          simp only [List.sum_cons]
          ring

/-- Dividing every entry by a constant divides the sum. -/
theorem lem_sum_map_div (l : List ℚ) (T : ℚ) :
    (l.map (fun v => v / T)).sum = l.sum / T := by
  induction l with
  | nil => simp
  | cons x xs ih => simp [ih, add_div]

/-- Claim C5: with a non-empty row set and ordered cutoffs, every output row
of the classifier carries the layered-override class of its own cumulative
share — A when the share is within the A cutoff, otherwise B when within
the B cutoff, otherwise the default C — and a row whose cumulative share
equals the A cutoff exactly is classified A, not B. -/
theorem claim_C5_layered_overrides (df : InputDF) (itemc dcol ccol : String) (a b : ℚ)
    (t : List ORow) (hne : df.rows ≠ []) (hab : a ≤ b)
    (h : perform_abc_analysis df itemc dcol ccol a b = Except.ok t) :
    ∀ r ∈ t,
      (pLe r.cumulative_value_percentage a = true → r.abc_class = ABCClass.A) ∧
      (pLe r.cumulative_value_percentage a = false →
        pLe r.cumulative_value_percentage b = true → r.abc_class = ABCClass.B) ∧
      (pLe r.cumulative_value_percentage a = false →
        pLe r.cumulative_value_percentage b = false → r.abc_class = ABCClass.C) ∧
      (r.cumulative_value_percentage = PandasVal.fin a → r.abc_class = ABCClass.A) := by
  by_cases hd : dcol ∈ df.cols
  · by_cases hc : ccol ∈ df.cols
    · rw [lem_classify_eq df itemc dcol ccol a b hd hc] at h
      injection h with h
      subst h
      intro r hr
      obtain ⟨hcls, _, _⟩ := lem_buildRows_mem a b _ _ _ _ _ r hr
      refine ⟨?_, ?_, ?_, ?_⟩
      · intro hpa
        rw [hcls]
        unfold assignClass
        simp [hpa]
      · intro hpa hpb
        rw [hcls]
        unfold assignClass
        simp [hpa, hpb]
      · intro hpa hpb
        rw [hcls]
        unfold assignClass
        simp [hpa, hpb]
      · intro hcum
        rw [hcls, hcum]
        unfold assignClass pLe
        simp
    · exfalso
      rw [perform_abc_analysis] at h
      rw [show getColumn df ccol = Except.error PdError.keyError from by
        unfold getColumn; rw [if_neg hc]] at h
      cases hgd : getColumn df dcol with
      | error e => rw [hgd] at h; exact absurd h (by simp)
      | ok ds => rw [hgd] at h; exact absurd h (by simp)
  · exfalso
    rw [perform_abc_analysis] at h
    rw [show getColumn df dcol = Except.error PdError.keyError from by
      unfold getColumn; rw [if_neg hd]] at h
    exact absurd h (by simp)

/-- Witness for claim C5 on the spec's worked example: the top row sits at
cumulative share 50/63, within the 4/5 cutoff, so it is classified A. -/
theorem claim_C5_layered_overrides_witness : rowX.abc_class = ABCClass.A :=
  (claim_C5_layered_overrides dfEx "item_id" "annual_demand" "unit_cost" (4 / 5) (19 / 20)
      [rowX, rowY, rowZ] (by decide) (by norm_num) (by with_unfolding_all rfl) rowX
      (List.mem_cons_self _ _)).1 (by with_unfolding_all decide)

/-- Counterexample to claim C6 as stated: with a single zero-value row the
classifier's value share column is NaN (numpy's 0/0), not 0. -/
theorem claim_C6_counterexample_nan_share :
    (perform_abc_analysis dfZero "item_id" "annual_demand" "unit_cost" (4 / 5) (19 / 20)).map
        (fun t => t.map ORow.value_percentage) = Except.ok [PandasVal.nan] ∧
      PandasVal.nan ≠ PandasVal.fin 0 :=
  ⟨by with_unfolding_all rfl, by decide⟩

/-- Claim C6 amended: with a non-empty row set whose every annual value is
zero, the classifier returns one row per input row whose value share and
cumulative share are both NaN, and every row is classified C, for any
positive cutoffs. -/
theorem claim_C6_zero_total_amended (df : InputDF) (itemc dcol ccol : String) (a b : ℚ)
    (hne : df.rows ≠ []) (hpa : 0 < a) (hpb : 0 < b)
    (hd : dcol ∈ df.cols) (hc : ccol ∈ df.cols)
    (hzero : ∀ r ∈ df.rows, annualValue dcol ccol r = 0) :
    ∃ t, perform_abc_analysis df itemc dcol ccol a b = Except.ok t ∧
      t.length = df.rows.length ∧
      ∀ r ∈ t, r.value_percentage = PandasVal.nan ∧
        r.cumulative_value_percentage = PandasVal.nan ∧
        r.abc_class = ABCClass.C := by
  have hsortvals : ∀ p ∈ sortedPairs df dcol ccol, p.2 = 0 := by
    intro p hp
    have hp2 : p ∈ df.rows.zip (df.rows.map (annualValue dcol ccol)) :=
      (List.perm_insertionSort _ _).mem_iff.mp hp
    have := (List.of_mem_zip hp2).2
    obtain ⟨r, hr, he⟩ := List.mem_map.mp this
    rw [← he]
    exact hzero r hr
  have htot : totalOf df dcol ccol = 0 := by
    apply List.sum_eq_zero
    intro v hv
    obtain ⟨p, hp, he⟩ := List.mem_map.mp hv
    rw [← he]
    exact hsortvals p hp
  have hshares : ∀ s ∈ sharesOf df dcol ccol, s = PandasVal.nan := by
    intro s hs
    obtain ⟨p, hp, he⟩ := List.mem_map.mp hs
    rw [← he, hsortvals p hp, htot]
    unfold pDiv
    simp
  have hlen1 : (sharesOf df dcol ccol).length = (sortedPairs df dcol ccol).length :=
    List.length_map _ _
  have hlen2 : (pdCumsum (PandasVal.fin 0) (sharesOf df dcol ccol)).length =
      (sortedPairs df dcol ccol).length := by
    rw [lem_pdCumsum_length]; exact hlen1
  have hlen3 : (sortedPairs df dcol ccol).length = df.rows.length := by
    unfold sortedPairs
    rw [List.length_insertionSort, List.length_zip, List.length_map]
    exact Nat.min_self _
  refine ⟨_, lem_classify_eq df itemc dcol ccol a b hd hc, ?_, ?_⟩
  · rw [lem_buildRows_length a b _ _ _ _ _ hlen1 hlen2]
    exact hlen3
  · intro r hr
    obtain ⟨hcls, hvp, hcum⟩ := lem_buildRows_mem a b _ _ _ _ _ r hr
    have h1 : r.value_percentage = PandasVal.nan := hshares _ hvp
    have h2 : r.cumulative_value_percentage = PandasVal.nan :=
      lem_pdCumsum_nan _ hshares _ _ hcum
    refine ⟨h1, h2, ?_⟩
    rw [hcls, h2]
    rfl

/-- Witness for the amended claim C6 at the concrete zero-value input. -/
theorem claim_C6_zero_total_amended_witness :
    ∃ t, perform_abc_analysis dfZero "item_id" "annual_demand" "unit_cost" (4 / 5) (19 / 20) =
        Except.ok t ∧
      t.length = dfZero.rows.length ∧
      ∀ r ∈ t, r.value_percentage = PandasVal.nan ∧
        r.cumulative_value_percentage = PandasVal.nan ∧
        r.abc_class = ABCClass.C :=
  claim_C6_zero_total_amended dfZero "item_id" "annual_demand" "unit_cost" (4 / 5) (19 / 20)
    (by decide) (by norm_num) (by norm_num) (by decide) (by decide)
    (by with_unfolding_all decide)

/-- Counterexample to claim C8 as stated: on an empty row set with both
columns present the classifier does not fail; it returns an empty table. -/
theorem claim_C8_counterexample_empty_ok :
    perform_abc_analysis dfEmptyRows "item_id" "annual_demand" "unit_cost" (4 / 5) (19 / 20) =
      Except.ok [] := rfl

/-- Claim C8 amended: the classifier aborts with the KeyError failure
whenever the named demand or cost column is absent from the frame, but an
empty row set with both columns present yields an empty table, not an
error. -/
theorem claim_C8_invalid_input_amended :
    (∀ (df : InputDF) (itemc dcol ccol : String) (a b : ℚ), dcol ∉ df.cols →
      perform_abc_analysis df itemc dcol ccol a b = Except.error PdError.keyError) ∧
    (∀ (df : InputDF) (itemc dcol ccol : String) (a b : ℚ), ccol ∉ df.cols →
      perform_abc_analysis df itemc dcol ccol a b = Except.error PdError.keyError) ∧
    (∀ (df : InputDF) (itemc dcol ccol : String) (a b : ℚ),
      df.rows = [] → dcol ∈ df.cols → ccol ∈ df.cols →
      perform_abc_analysis df itemc dcol ccol a b = Except.ok []) := by
  refine ⟨?_, ?_, ?_⟩
  · intro df itemc dcol ccol a b hd
    unfold perform_abc_analysis getColumn
    rw [if_neg hd]
  · intro df itemc dcol ccol a b hc
    by_cases hd : dcol ∈ df.cols
    · unfold perform_abc_analysis getColumn
      rw [if_pos hd, if_neg hc]
    · unfold perform_abc_analysis getColumn
      rw [if_neg hd]
  · intro df itemc dcol ccol a b hrows hd hc
    rw [lem_classify_eq df itemc dcol ccol a b hd hc]
    unfold sortedPairs sharesOf totalOf sortedPairs
    rw [hrows]
    rfl

/-- Witness for the amended claim C8: a missing cost column errors, and the
empty-row frame with both columns yields the empty table. -/
theorem claim_C8_invalid_input_amended_witness :
    perform_abc_analysis dfEmptyRows "item_id" "annual_demand" "missing_cost" (4 / 5)
        (19 / 20) = Except.error PdError.keyError ∧
      perform_abc_analysis dfEmptyRows "item_id" "annual_demand" "unit_cost" (4 / 5)
        (19 / 20) = Except.ok [] :=
  ⟨claim_C8_invalid_input_amended.2.1 dfEmptyRows "item_id" "annual_demand" "missing_cost"
      (4 / 5) (19 / 20) (by decide),
    claim_C8_invalid_input_amended.2.2 dfEmptyRows "item_id" "annual_demand" "unit_cost"
      (4 / 5) (19 / 20) rfl (by decide) (by decide)⟩

/-- The classifier's sort keeps one pair per input row. -/
theorem lem_sortedPairs_length (df : InputDF) (dcol ccol : String) :
    (sortedPairs df dcol ccol).length = df.rows.length := by
  unfold sortedPairs
  rw [List.length_insertionSort, List.length_zip, List.length_map]
  exact Nat.min_self _

/-- The sorted annual values are a permutation of the input annual values. -/
theorem lem_sortedPairs_snd_perm (df : InputDF) (dcol ccol : String) :
    ((sortedPairs df dcol ccol).map Prod.snd).Perm
      (df.rows.map (annualValue dcol ccol)) := by
  have h1 : ((df.rows.zip (df.rows.map (annualValue dcol ccol))).map Prod.snd) =
      df.rows.map (annualValue dcol ccol) :=
    List.map_snd_zip _ _ (by rw [List.length_map])
  unfold sortedPairs
  have h2 := (List.perm_insertionSort valueDescRel
    (df.rows.zip (df.rows.map (annualValue dcol ccol)))).map Prod.snd
  rw [h1] at h2
  exact h2

/-- Claim C7: for a non-empty row set with nonnegative demands and costs and
positive total annual value, the cumulative share column consists of finite
rationals forming a non-decreasing chain whose last entry is exactly 1. -/
theorem claim_C7_cumulative_monotone (df : InputDF) (itemc dcol ccol : String) (a b : ℚ)
    (hne : df.rows ≠ []) (hd : dcol ∈ df.cols) (hc : ccol ∈ df.cols)
    (hnn : ∀ r ∈ df.rows, 0 ≤ (r.lookup dcol).getD 0 ∧ 0 ≤ (r.lookup ccol).getD 0)
    (hpos : 0 < (df.rows.map (annualValue dcol ccol)).sum) :
    ∃ (t : List ORow) (qs : List ℚ),
      perform_abc_analysis df itemc dcol ccol a b = Except.ok t ∧
      t ≠ [] ∧
      t.map ORow.cumulative_value_percentage = qs.map PandasVal.fin ∧
      List.Chain' (fun x y => x ≤ y) qs ∧
      qs.getLast? = some 1 := by
  have hperm := lem_sortedPairs_snd_perm df dcol ccol
  have htoteq : totalOf df dcol ccol = (df.rows.map (annualValue dcol ccol)).sum :=
    hperm.sum_eq
  have hTpos : 0 < totalOf df dcol ccol := htoteq ▸ hpos
  have hTne : totalOf df dcol ccol ≠ 0 := ne_of_gt hTpos
  have hvnn : ∀ v ∈ (sortedPairs df dcol ccol).map Prod.snd, 0 ≤ v := by
    intro v hv
    obtain ⟨r, hr, he⟩ := List.mem_map.mp (hperm.mem_iff.mp hv)
    rw [← he]
    exact mul_nonneg (hnn r hr).1 (hnn r hr).2
  have hshares : sharesOf df dcol ccol =
      (((sortedPairs df dcol ccol).map Prod.snd).map
        (fun v => v / totalOf df dcol ccol)).map PandasVal.fin := by
    unfold sharesOf
    rw [List.map_map, List.map_map]
    refine List.map_congr_left ?_
    intro x hx
    simp only [Function.comp]
    unfold pDiv
    rw [if_neg hTne]
  have hlen1 : (sharesOf df dcol ccol).length = (sortedPairs df dcol ccol).length :=
    List.length_map _ _
  have hlen2 : (pdCumsum (PandasVal.fin 0) (sharesOf df dcol ccol)).length =
      (sortedPairs df dcol ccol).length := by
    rw [lem_pdCumsum_length]; exact hlen1
  have hrowspos : 0 < df.rows.length := List.length_pos.mpr hne
  have hsvlen : (((sortedPairs df dcol ccol).map Prod.snd).map
      (fun v => v / totalOf df dcol ccol)).length = df.rows.length := by
    rw [List.length_map, List.length_map, lem_sortedPairs_length]
  have hsvne : ((sortedPairs df dcol ccol).map Prod.snd).map
      (fun v => v / totalOf df dcol ccol) ≠ [] := by
    refine List.length_pos.mp ?_
    rw [hsvlen]
    exact hrowspos
  refine ⟨_, qCumsum 0 (((sortedPairs df dcol ccol).map Prod.snd).map
      (fun v => v / totalOf df dcol ccol)),
    lem_classify_eq df itemc dcol ccol a b hd hc, ?_, ?_, ?_, ?_⟩
  · refine List.length_pos.mp ?_
    rw [lem_buildRows_length a b _ _ _ _ _ hlen1 hlen2, lem_sortedPairs_length]
    exact hrowspos
  · rw [lem_buildRows_map_cum a b _ _ _ _ _ hlen1 hlen2]
    rw [hshares, lem_pdCumsum_fin]
  · refine (lem_qCumsum_chain _ 0 ?_).1
    intro x hx
    obtain ⟨v, hv, he⟩ := List.mem_map.mp hx
    rw [← he]
    exact div_nonneg (hvnn v hv) (le_of_lt hTpos)
  · rw [lem_qCumsum_getLast _ 0 hsvne, lem_sum_map_div]
    have hsum : ((sortedPairs df dcol ccol).map Prod.snd).sum = totalOf df dcol ccol := rfl
    rw [hsum, div_self hTne, zero_add]

/-- Witness for claim C7 on the spec's worked example. -/
theorem claim_C7_cumulative_monotone_witness :
    ∃ (t : List ORow) (qs : List ℚ),
      perform_abc_analysis dfEx "item_id" "annual_demand" "unit_cost" (4 / 5) (19 / 20) =
        Except.ok t ∧
      t ≠ [] ∧
      t.map ORow.cumulative_value_percentage = qs.map PandasVal.fin ∧
      List.Chain' (fun x y => x ≤ y) qs ∧
      qs.getLast? = some 1 :=
  claim_C7_cumulative_monotone dfEx "item_id" "annual_demand" "unit_cost" (4 / 5) (19 / 20)
    (by decide) (by decide) (by decide) (by with_unfolding_all decide)
    (by with_unfolding_all decide)
